import Mathlib

/-!
Shallow embedding of the connectivity orchestration layer of the
serverlessChat p2p client (src/p2p-client/src/network/client.rs and
src/p2p-client/src/network/nat_traversal.rs), together with proofs about
the friend presence scheduler, the command/event bridge and the NAT
traversal coordinator.

Peer identifiers produced by the external libp2p parser are modelled as
an abstract type (`PeerId := Nat`); `PeerId::from_str` is an external
black box and is therefore passed around as an explicit
`parse : String → Except String PeerId` argument.
-/

namespace ServerlessChat

/-- Model of libp2p `PeerId`: an opaque, decidably-comparable token. -/
abbrev PeerId := Nat

/-- One component of a multiaddress: either an embedded peer identifier
(`/p2p/<id>`), a relay circuit marker (`/p2p-circuit`), or any other
transport component. -/
inductive Proto where
  | p2p (peer : PeerId)
  | circuit
  | other (tag : Nat)
deriving DecidableEq, Repr

/-- Model of libp2p `Multiaddr`: the ordered list of its protocol
components.  `Multiaddr::pop` removes the last component. -/
abbrev Multiaddr := List Proto

/-- `ChatMessage` from src/p2p-client/src/common/types.rs. -/
structure ChatMessage where
  id : String
  sender : String
  content : String
  timestamp : Int
deriving DecidableEq, Repr

/-- `PeerStatus` from src/p2p-client/src/common/types.rs. -/
structure PeerStatus where
  peer_id : String
  online : Bool
  message : String
  checked_at : Int
deriving DecidableEq, Repr

/-- `NetworkEvent` from src/p2p-client/src/common/events.rs. -/
inductive NetworkEvent where
  | MessageReceived (msg : ChatMessage)
  | HistorySynced (msgs : List ChatMessage)
  | PeerConnected (peer : String)
  | PeerDisconnected (peer : String)
  | FriendStatus (status : PeerStatus)
deriving DecidableEq, Repr

/-- Engine-facing actions the `ConnectToPeer` handler can issue, in
order: registering an address in the Kademlia routing table
(`kad.add_address`) and dialing an address (`swarm.dial`). -/
inductive NetAction where
  | kadAddAddress (peer : PeerId) (addr : Multiaddr)
  | dial (addr : Multiaddr)
deriving DecidableEq, Repr

/-- `MAX_CONCURRENT_FRIEND_QUERIES` from client.rs (K = 3). -/
def MAX_CONCURRENT_FRIEND_QUERIES : Nat := 3

/-- The keys of an association list (models the key set of a `HashMap`). -/
def keysOf (l : List (α × β)) : List α := l.map Prod.fst

/-- The values of an association list (models `HashMap::values`). -/
def valsOf (l : List (α × β)) : List β := l.map Prod.snd

/-- Drop leading whitespace characters from a character list; helper for
the model of Rust `str::trim`. -/
def dropWhileWs : List Char → List Char
  | [] => []
  | c :: cs => if c.isWhitespace then dropWhileWs cs else c :: cs

/-- Model of Rust `str::trim`: remove whitespace from both ends. -/
def rustTrim (s : String) : String :=
  ⟨(dropWhileWs (dropWhileWs s.data.reverse).reverse)⟩

/-- Is `needle` a prefix of `hay`?  Helper for the model of Rust
`str::contains`. -/
def charPrefix : List Char → List Char → Bool
  | [], _ => true
  | _ :: _, [] => false
  | a :: as, b :: bs => if a = b then charPrefix as bs else false

/-- Does `hay` contain `needle` as a contiguous run?  Helper for the
model of Rust `str::contains`. -/
def charInfix (needle : List Char) : List Char → Bool
  | [] => needle.isEmpty
  | c :: rest => charPrefix needle (c :: rest) || charInfix needle rest

/-- Model of Rust `str::contains` (substring containment). -/
def strContains (hay needle : String) : Bool :=
  charInfix needle.data hay.data

/-- Number of occurrences of `p` in a list of strings. -/
def countStr (p : String) : List String → Nat
  | [] => 0
  | x :: xs => (if x = p then 1 else 0) + countStr p xs

/-! ## Friend presence scheduler (client.rs) -/

/-- The scheduler-relevant state of `P2PClient` (client.rs):
`friend_ids : HashSet<String>` (as a duplicate-free list),
`pending_friend_queries : HashMap<QueryId, String>` (as an association
list with distinct keys), `friend_queue : VecDeque<String>`.
`next_query_id` models the engine's supply of fresh `kad::QueryId`s and
`dispatched` is the observable log of `kad.get_closest_peers` calls
issued to the engine. -/
structure SchedState where
  friend_ids : List String
  pending_friend_queries : List (Nat × String)
  friend_queue : List String
  next_query_id : Nat
  dispatched : List (Nat × String)
deriving DecidableEq, Repr

/-- `P2PClient::new`: the friend list is loaded from disk and every
friend is placed in the lookup queue
(`friend_queue = friend_ids.iter().cloned().collect()`). -/
def initState (friends : List String) : SchedState :=
  { friend_ids := friends
    pending_friend_queries := []
    friend_queue := friends
    next_query_id := 0
    dispatched := [] }

/-- `enqueue_friend_check` (client.rs:402): no-op when the peer already
has a pending query or is already queued; otherwise push to the back of
the queue. -/
def enqueue_friend_check (s : SchedState) (peer_id : String) : SchedState :=
  if peer_id ∈ valsOf s.pending_friend_queries then s
  else if peer_id ∈ s.friend_queue then s
  else { s with friend_queue := s.friend_queue ++ [peer_id] }

/-- `start_friend_lookup` (client.rs:431): parse the peer id; on success
issue `kad.get_closest_peers` and record the pending query under the
fresh query id, returning `true`; on failure log and return `false`. -/
def start_friend_lookup (parse : String → Except String PeerId)
    (s : SchedState) (peer_id : String) : SchedState × Bool :=
  match parse peer_id with
  | .ok _ =>
      ({ s with
          pending_friend_queries :=
            s.pending_friend_queries ++ [(s.next_query_id, peer_id)]
          dispatched := s.dispatched ++ [(s.next_query_id, peer_id)]
          next_query_id := s.next_query_id + 1 }, true)
  | .error _ => (s, false)

/-- The admission loop of `try_start_next_friend_queries` (client.rs:416),
with the queue passed explicitly: while the number of pending queries is
below `MAX_CONCURRENT_FRIEND_QUERIES`, pop the queue head and try to
start its lookup; invalid ids are dropped without consuming a slot.  The
`friend_queue` field of the result is the unconsumed remainder. -/
def try_start_from (parse : String → Except String PeerId) :
    List String → SchedState → SchedState
  | [], s => { s with friend_queue := [] }
  | p :: rest, s =>
      if s.pending_friend_queries.length < MAX_CONCURRENT_FRIEND_QUERIES then
        try_start_from parse rest (start_friend_lookup parse s p).1
      else { s with friend_queue := p :: rest }

/-- `try_start_next_friend_queries` (client.rs:416). -/
def try_start_next_friend_queries (parse : String → Except String PeerId)
    (s : SchedState) : SchedState :=
  try_start_from parse s.friend_queue s

/-- `enqueue_all_friend_checks` (client.rs:395). -/
def enqueue_all_friend_checks (s : SchedState) : SchedState :=
  s.friend_ids.foldl enqueue_friend_check s

/-- The scheduler part of `P2PClient::run` startup (client.rs:137-139):
enqueue every known friend, then admit. -/
def startup (parse : String → Except String PeerId)
    (friends : List String) : SchedState :=
  try_start_next_friend_queries parse (enqueue_all_friend_checks (initState friends))

/-- Outcome of a `GetClosestPeers` query:
`Ok(GetClosestPeersOk { peers, .. })` or
`Err(GetClosestPeersError::Timeout { peers, .. })`. -/
inductive LookupResult where
  | ok (peers : List PeerId)
  | timeout (peers : List PeerId)
deriving DecidableEq, Repr

/-- The `PeerStatus` computed by `handle_friend_lookup_result`
(client.rs:450): `found` is whether the queried identifier parses and is
present among the returned closest peers; the message strings are the
exact format strings of the source. -/
def friend_lookup_status (parse : String → Except String PeerId)
    (now : Int) (peer_id : String) (result : LookupResult) : PeerStatus :=
  match result with
  | .ok peers =>
      let found :=
        match parse peer_id with
        | .ok target => peers.contains target
        | .error _ => false
      let message :=
        if found then
          "Đã tìm thấy trong DHT (" ++ toString peers.length ++ " peers gần nhất)"
        else if peers.isEmpty then
          "Không tìm thấy peer trong DHT"
        else
          "Không tìm thấy, nhưng có " ++ toString peers.length ++ " peers gần nhất trả về"
      ⟨peer_id, found, message, now⟩
  | .timeout peers =>
      ⟨peer_id, false,
        "Timeout khi truy vấn bootstrap (" ++ toString peers.length ++ " peers gần nhất)",
        now⟩

/-- The `GetClosestPeers` arm of `handle_kad_event` (client.rs:344-348):
if the query id is tracked, remove its `PendingLookup` and emit the
resulting `FriendStatus`; otherwise do nothing.  Note that the source
does not invoke `try_start_next_friend_queries` here. -/
def handle_kad_get_closest (parse : String → Except String PeerId)
    (now : Int) (s : SchedState) (qid : Nat) (result : LookupResult) :
    SchedState × List NetworkEvent :=
  match s.pending_friend_queries.find? (fun pr => pr.1 == qid) with
  | some pr =>
      ({ s with
          pending_friend_queries :=
            s.pending_friend_queries.filter (fun q => q.1 ≠ qid) },
        [NetworkEvent.FriendStatus (friend_lookup_status parse now pr.2 result)])
  | none => (s, [])

/-- `HashSet::insert` on the friend set (client.rs:71). -/
def insertFriend (s : SchedState) (peer_id : String) : SchedState :=
  if peer_id ∈ s.friend_ids then s
  else { s with friend_ids := s.friend_ids ++ [peer_id] }

/-- Result of `handle_add_friend`: the new scheduler state, the
`NetworkEvent`s sent to the UI, and whether `persist_friend_list` was
invoked. -/
structure AddFriendOut where
  state : SchedState
  events : List NetworkEvent
  persisted : Bool
deriving DecidableEq, Repr

/-- `handle_add_friend` (client.rs:61-96): trim the id; ignore empty
input; insert into the friend set and persist when newly added; then
validate: a valid id gets a "checking" status, is enqueued, and
admission runs; an invalid id only gets a diagnostic status. -/
def handle_add_friend (parse : String → Except String PeerId)
    (now : Int) (s : SchedState) (peer_id : String) : AddFriendOut :=
  let pid := rustTrim peer_id
  if pid.data.isEmpty then ⟨s, [], false⟩
  else
    let was_new := !(s.friend_ids.contains pid)
    let s1 := insertFriend s pid
    match parse pid with
    | .ok _ =>
        ⟨try_start_next_friend_queries parse (enqueue_friend_check s1 pid),
          [NetworkEvent.FriendStatus
            ⟨pid, false, "Đang kiểm tra qua bootstrap node...", now⟩],
          was_new⟩
    | .error err =>
        ⟨s1,
          [NetworkEvent.FriendStatus
            ⟨pid, false, "PeerId không hợp lệ: " ++ err, now⟩],
          was_new⟩

/-! ## Command/event bridge (client.rs, `handle_command`) -/

/-- The `SendMessage` arm of `handle_command` (client.rs:168-200).
The message record carries a fresh unique id (`msg_id`), the local
identity as sender and the current time.  Serialization of this record
cannot fail (`serde_json::to_vec` on a struct of strings and integers),
so the handler attempts the publish exactly when chat is enabled; the
first component records whether a publish was attempted and its outcome
(`none` = not attempted).  The local `MessageReceived` echo is emitted
only on successful publish. -/
def handle_send_message (enable_chat publish_ok : Bool)
    (local_peer content msg_id : String) (now : Int) :
    Option Bool × List NetworkEvent :=
  if enable_chat then
    let msg : ChatMessage := ⟨msg_id, local_peer, content, now⟩
    if publish_ok then (some true, [NetworkEvent.MessageReceived msg])
    else (some false, [])
  else (none, [])

/-- The `ConnectToPeer` arm of `handle_command` (client.rs:213-240):
parse the multiaddress; if its last component embeds a peer identifier,
register the full address in the Kademlia routing table; then dial.
Dial failures are only logged (`dial_ok` influences no output); the
third component records whether the handler terminates the session. -/
def handle_connect_to_peer (parseAddr : String → Except String Multiaddr)
    (dial_ok : Bool) (address : String) :
    List NetAction × List NetworkEvent × Bool :=
  match parseAddr address with
  | .ok addr =>
      (match addr.getLast? with
        | some (Proto.p2p pid) =>
            [NetAction.kadAddAddress pid addr, NetAction.dial addr]
        | _ => [NetAction.dial addr],
        [], false)
  | .error _ => ([], [], false)

/-! ## NAT traversal coordinator (nat_traversal.rs) -/

/-- The state of `NatTraversal` (nat_traversal.rs:12-21), with `HashSet`s
as lists and the pending-retry `HashMap` as an association list. -/
structure NatTraversalState where
  failed_direct_connections : List PeerId
  relay_peers : List PeerId
  pending_relay_retries : List (PeerId × List Multiaddr)
  bootstrap_peers : List (PeerId × Multiaddr)
deriving DecidableEq, Repr

/-- `NatTraversal::new` (nat_traversal.rs:24). -/
def natNew (bootstrap : List (PeerId × Multiaddr)) : NatTraversalState :=
  ⟨[], [], [], bootstrap⟩

/-- `handle_dcutr_event` (nat_traversal.rs:99-126): the event is
formatted to a string; whichever branch the substring checks select,
the handler only logs (second component) and leaves the coordinator
state untouched. -/
def handle_dcutr_event (s : NatTraversalState) (event_str : String) :
    NatTraversalState × List String :=
  if strContains event_str "Established" then
    (s, ["DCUtR hole punching established"])
  else if strContains event_str "Error" then
    (s, ["DCUtR error occurred, will retry with relay if needed"])
  else
    (s, ["DCUtR event: " ++ event_str])

/-- `mark_failed_direct` (nat_traversal.rs:196). -/
def mark_failed_direct (s : NatTraversalState) (peer : PeerId) : NatTraversalState :=
  if peer ∈ s.failed_direct_connections then s
  else { s with failed_direct_connections := s.failed_direct_connections ++ [peer] }

/-- `clear_failed_direct` (nat_traversal.rs:201-204): remove the peer
from the failed set and drop any pending relay retry. -/
def clear_failed_direct (s : NatTraversalState) (peer : PeerId) : NatTraversalState :=
  { s with
      failed_direct_connections :=
        s.failed_direct_connections.filter (fun q => q ≠ peer)
      pending_relay_retries :=
        s.pending_relay_retries.filter (fun pr => pr.1 ≠ peer) }

/-- `has_failed_direct` (nat_traversal.rs:207). -/
def has_failed_direct (s : NatTraversalState) (peer : PeerId) : Bool :=
  s.failed_direct_connections.contains peer

/-- `discover_relay_peers` (nat_traversal.rs:176-193): opportunistically
add every bootstrap peer not yet known as a relay to the relay set. -/
def discover_relay_peers (s : NatTraversalState) : NatTraversalState :=
  { s with
      relay_peers := s.bootstrap_peers.foldl
        (fun acc pr => if pr.1 ∈ acc then acc else acc ++ [pr.1])
        s.relay_peers }

/-- The relay circuit address
`/p2p/<relay>/p2p-circuit/p2p/<target>` built by `retry_with_relay`
(nat_traversal.rs:147); its construction from two peer ids always
parses. -/
def relayCircuitAddr (relay target : PeerId) : Multiaddr :=
  [Proto.p2p relay, Proto.circuit, Proto.p2p target]

/-- `retry_with_relay` (nat_traversal.rs:129-173): skip when the peer is
already connected (`dialed_peers`) or already has a pending retry;
otherwise pick an arbitrary-first known relay, record the pending retry,
and dial the relay circuit address (the second component; a failed dial
removes the pending entry again).  With no relay known, fall back to
relay discovery. -/
def retry_with_relay (s : NatTraversalState) (dial_ok : Bool)
    (peer : PeerId) (dialed_peers : List PeerId) :
    NatTraversalState × Option Multiaddr :=
  if peer ∈ dialed_peers ∨ peer ∈ keysOf s.pending_relay_retries then (s, none)
  else
    match s.relay_peers.head? with
    | some relay_id =>
        let addr := relayCircuitAddr relay_id peer
        let s1 := { s with
          pending_relay_retries := s.pending_relay_retries ++ [(peer, [addr])] }
        if dial_ok then (s1, some addr)
        else
          ({ s1 with
              pending_relay_retries :=
                s1.pending_relay_retries.filter (fun pr => pr.1 ≠ peer) },
            some addr)
    | none => (discover_relay_peers s, none)

/-! ## Scheduler invariant and reachability -/

/-- The scheduler invariant: at most K pending lookups, distinct query
ids, at most one pending lookup per peer id, query ids below the fresh
supply, a duplicate-free queue disjoint from the pending peers, and a
duplicate-free friend set. -/
def SchedInv (s : SchedState) : Prop :=
  s.pending_friend_queries.length ≤ MAX_CONCURRENT_FRIEND_QUERIES ∧
  (keysOf s.pending_friend_queries).Nodup ∧
  (valsOf s.pending_friend_queries).Nodup ∧
  (∀ k ∈ keysOf s.pending_friend_queries, k < s.next_query_id) ∧
  s.friend_queue.Nodup ∧
  (∀ p ∈ s.friend_queue, p ∉ valsOf s.pending_friend_queries) ∧
  s.friend_ids.Nodup

instance (s : SchedState) : Decidable (SchedInv s) := by
  unfold SchedInv; infer_instance

/-- The states reachable by sequences of scheduler operations: initial
load of a (duplicate-free) friend set, enqueue, admission, lookup
resolution, and the composite `AddFriend` handler. -/
inductive Reachable (parse : String → Except String PeerId) : SchedState → Prop where
  | init (friends : List String) (h : friends.Nodup) :
      Reachable parse (initState friends)
  | enqueue (s : SchedState) (p : String) :
      Reachable parse s → Reachable parse (enqueue_friend_check s p)
  | admission (s : SchedState) :
      Reachable parse s → Reachable parse (try_start_next_friend_queries parse s)
  | resolve (s : SchedState) (now : Int) (qid : Nat) (r : LookupResult) :
      Reachable parse s →
      Reachable parse (handle_kad_get_closest parse now s qid r).1
  | addFriend (s : SchedState) (now : Int) (p : String) :
      Reachable parse s → Reachable parse (handle_add_friend parse now s p).state

/-- A concrete peer-id parser used to run the embedded handlers on
closed inputs: it accepts four test identifiers. -/
def pidParse : String → Except String PeerId := fun s =>
  if s = "peerA" then .ok 1
  else if s = "peerB" then .ok 2
  else if s = "peerC" then .ok 3
  else if s = "peerD" then .ok 4
  else .error "invalid peer id"

/-- A concrete multiaddress parser used to run the connect handler on
closed inputs. -/
def addrParseTest : String → Except String Multiaddr := fun s =>
  if s = "addr-p2p" then .ok [Proto.other 0, Proto.p2p 7]
  else if s = "addr-plain" then .ok [Proto.other 0]
  else .error "invalid multiaddr"

/-! ## Helper lemmas -/

theorem charPrefix_self_append (n b : List Char) : charPrefix n (n ++ b) = true := by
  induction n with
  | nil => rfl
  | cons c cs ih => simp [charPrefix, ih]

theorem charInfix_of_charPrefix {n h : List Char} (hp : charPrefix n h = true) :
    charInfix n h = true := by
  cases h with
  | nil =>
      cases n with
      | nil => rfl
      | cons c cs => simp [charPrefix] at hp
  | cons c cs => simp [charInfix, hp]

theorem charInfix_append (n a b : List Char) : charInfix n (a ++ n ++ b) = true := by
  induction a with
  | nil =>
      simpa using charInfix_of_charPrefix (charPrefix_self_append n b)
  | cons c cs ih =>
      have hrw : (c :: cs) ++ n ++ b = c :: (cs ++ n ++ b) := by simp
      rw [hrw]
      show (charPrefix n (c :: (cs ++ n ++ b)) || charInfix n (cs ++ n ++ b)) = true
      rw [ih, Bool.or_true]

theorem strContains_of_data (s p : String) (pre suf : List Char)
    (h : s.data = pre ++ p.data ++ suf) : strContains s p = true := by
  unfold strContains
  rw [h]
  exact charInfix_append p.data pre suf

theorem countStr_append (p : String) (a b : List String) :
    countStr p (a ++ b) = countStr p a + countStr p b := by
  induction a with
  | nil => simp [countStr]
  | cons x xs ih => simp [countStr, ih]; omega

theorem countStr_eq_zero {p : String} {l : List String} (h : p ∉ l) :
    countStr p l = 0 := by
  induction l with
  | nil => rfl
  | cons x xs ih =>
      simp only [List.mem_cons, not_or] at h
      simp [countStr, Ne.symm h.1, ih h.2]

theorem countStr_le_one_of_nodup {p : String} {l : List String} (h : l.Nodup) :
    countStr p l ≤ 1 := by
  induction l with
  | nil => simp [countStr]
  | cons x xs ih =>
      rcases List.nodup_cons.1 h with ⟨hx, hxs⟩
      by_cases hxp : x = p
      · subst hxp
        simp [countStr, countStr_eq_zero hx]
      · simp [countStr, hxp, ih hxs]

theorem valsOf_append (a b : List (α × β)) : valsOf (a ++ b) = valsOf a ++ valsOf b := by
  simp [valsOf]

theorem keysOf_append (a b : List (α × β)) : keysOf (a ++ b) = keysOf a ++ keysOf b := by
  simp [keysOf]

theorem insertFriend_pending (s : SchedState) (p : String) :
    (insertFriend s p).pending_friend_queries = s.pending_friend_queries := by
  unfold insertFriend; split <;> rfl

theorem insertFriend_queue (s : SchedState) (p : String) :
    (insertFriend s p).friend_queue = s.friend_queue := by
  unfold insertFriend; split <;> rfl

theorem insertFriend_disp (s : SchedState) (p : String) :
    (insertFriend s p).dispatched = s.dispatched := by
  unfold insertFriend; split <;> rfl

theorem insertFriend_nq (s : SchedState) (p : String) :
    (insertFriend s p).next_query_id = s.next_query_id := by
  unfold insertFriend; split <;> rfl

theorem insertFriend_ids_nodup {s : SchedState} (p : String)
    (h : s.friend_ids.Nodup) : (insertFriend s p).friend_ids.Nodup := by
  unfold insertFriend
  by_cases hmem : p ∈ s.friend_ids
  · simpa [hmem] using h
  · simp only [if_neg hmem]
    refine List.Nodup.append h (List.nodup_singleton p) ?_
    intro a ha hb
    rw [List.mem_singleton] at hb
    subst hb
    exact hmem ha

theorem enqueue_pending (s : SchedState) (p : String) :
    (enqueue_friend_check s p).pending_friend_queries = s.pending_friend_queries := by
  unfold enqueue_friend_check
  split
  · rfl
  · split <;> rfl

theorem enqueue_disp (s : SchedState) (p : String) :
    (enqueue_friend_check s p).dispatched = s.dispatched := by
  unfold enqueue_friend_check
  split
  · rfl
  · split <;> rfl

theorem enqueue_ids (s : SchedState) (p : String) :
    (enqueue_friend_check s p).friend_ids = s.friend_ids := by
  unfold enqueue_friend_check
  split
  · rfl
  · split <;> rfl

theorem enqueue_nq (s : SchedState) (p : String) :
    (enqueue_friend_check s p).next_query_id = s.next_query_id := by
  unfold enqueue_friend_check
  split
  · rfl
  · split <;> rfl

theorem enqueue_mem (s : SchedState) (p : String) :
    p ∈ valsOf (enqueue_friend_check s p).pending_friend_queries ∨
      p ∈ (enqueue_friend_check s p).friend_queue := by
  unfold enqueue_friend_check
  by_cases h1 : p ∈ valsOf s.pending_friend_queries
  · simpa [h1] using Or.inl h1
  · by_cases h2 : p ∈ s.friend_queue
    · simpa [h1, h2] using Or.inr h2
    · simp [h1, h2]

theorem enqueue_noop {s : SchedState} {p : String}
    (h : p ∈ valsOf s.pending_friend_queries ∨ p ∈ s.friend_queue) :
    enqueue_friend_check s p = s := by
  unfold enqueue_friend_check
  rcases h with h | h
  · simp [h]
  · by_cases h1 : p ∈ valsOf s.pending_friend_queries <;> simp [h1, h]

theorem start_friend_lookup_ok {parse : String → Except String PeerId}
    {p : String} {t : PeerId} (s : SchedState) (h : parse p = .ok t) :
    (start_friend_lookup parse s p).1 =
      { s with
          pending_friend_queries :=
            s.pending_friend_queries ++ [(s.next_query_id, p)]
          dispatched := s.dispatched ++ [(s.next_query_id, p)]
          next_query_id := s.next_query_id + 1 } := by
  simp [start_friend_lookup, h]

theorem start_friend_lookup_err {parse : String → Except String PeerId}
    {p e : String} (s : SchedState) (h : parse p = .error e) :
    (start_friend_lookup parse s p).1 = s := by
  simp [start_friend_lookup, h]

theorem try_start_from_cons_lt (parse : String → Except String PeerId)
    (p : String) (rest : List String) (s : SchedState)
    (h : s.pending_friend_queries.length < MAX_CONCURRENT_FRIEND_QUERIES) :
    try_start_from parse (p :: rest) s =
      try_start_from parse rest (start_friend_lookup parse s p).1 := by
  simp [try_start_from, h]

theorem try_start_from_cons_ge (parse : String → Except String PeerId)
    (p : String) (rest : List String) (s : SchedState)
    (h : ¬ s.pending_friend_queries.length < MAX_CONCURRENT_FRIEND_QUERIES) :
    try_start_from parse (p :: rest) s = { s with friend_queue := p :: rest } := by
  simp [try_start_from, h]

theorem try_start_from_full (parse : String → Except String PeerId)
    (q : List String) (s : SchedState)
    (h : ¬ s.pending_friend_queries.length < MAX_CONCURRENT_FRIEND_QUERIES) :
    try_start_from parse q s = { s with friend_queue := q } := by
  cases q with
  | nil => rfl
  | cons p rest => exact try_start_from_cons_ge parse p rest s h

theorem try_start_from_spec (parse : String → Except String PeerId) :
    ∀ (q : List String) (s : SchedState),
      (try_start_from parse q s).friend_ids = s.friend_ids ∧
      s.pending_friend_queries <+: (try_start_from parse q s).pending_friend_queries ∧
      s.dispatched <+: (try_start_from parse q s).dispatched ∧
      (try_start_from parse q s).friend_queue <:+ q := by
  intro q
  induction q with
  | nil =>
      intro s
      exact ⟨rfl, List.prefix_refl _, List.prefix_refl _, List.nil_suffix⟩
  | cons p rest ih =>
      intro s
      by_cases h : s.pending_friend_queries.length < MAX_CONCURRENT_FRIEND_QUERIES
      · rw [try_start_from_cons_lt parse p rest s h]
        obtain ⟨h1, h2, h3, h4⟩ := ih (start_friend_lookup parse s p).1
        refine ⟨?_, ?_, ?_, h4.trans (List.suffix_cons p rest)⟩
        · rw [h1]
          cases hp : parse p with
          | ok t => rw [start_friend_lookup_ok s hp]
          | error e => rw [start_friend_lookup_err s hp]
        · refine List.IsPrefix.trans ?_ h2
          cases hp : parse p with
          | ok t =>
              rw [start_friend_lookup_ok s hp]
              exact List.prefix_append _ _
          | error e =>
              rw [start_friend_lookup_err s hp]
        · refine List.IsPrefix.trans ?_ h3
          cases hp : parse p with
          | ok t =>
              rw [start_friend_lookup_ok s hp]
              exact List.prefix_append _ _
          | error e =>
              rw [start_friend_lookup_err s hp]
      · rw [try_start_from_cons_ge parse p rest s h]
        exact ⟨rfl, List.prefix_refl _, List.prefix_refl _, List.suffix_refl _⟩

theorem try_start_from_len (parse : String → Except String PeerId) :
    ∀ (q : List String) (s : SchedState),
      s.pending_friend_queries.length ≤ MAX_CONCURRENT_FRIEND_QUERIES →
      (try_start_from parse q s).pending_friend_queries.length
        ≤ MAX_CONCURRENT_FRIEND_QUERIES := by
  intro q
  induction q with
  | nil => intro s h; exact h
  | cons p rest ih =>
      intro s h
      by_cases hlt : s.pending_friend_queries.length < MAX_CONCURRENT_FRIEND_QUERIES
      · rw [try_start_from_cons_lt parse p rest s hlt]
        apply ih
        cases hp : parse p with
        | ok t =>
            rw [start_friend_lookup_ok s hp]
            simp only [List.length_append, List.length_singleton]
            omega
        | error e =>
            rw [start_friend_lookup_err s hp]
            exact h
      · rw [try_start_from_cons_ge parse p rest s hlt]
        exact h

theorem try_start_from_stop (parse : String → Except String PeerId) :
    ∀ (q : List String) (s : SchedState),
      s.pending_friend_queries.length ≤ MAX_CONCURRENT_FRIEND_QUERIES →
      ((try_start_from parse q s).friend_queue = [] ∨
        (try_start_from parse q s).pending_friend_queries.length
          = MAX_CONCURRENT_FRIEND_QUERIES) := by
  intro q
  induction q with
  | nil => intro s _; exact Or.inl rfl
  | cons p rest ih =>
      intro s h
      by_cases hlt : s.pending_friend_queries.length < MAX_CONCURRENT_FRIEND_QUERIES
      · rw [try_start_from_cons_lt parse p rest s hlt]
        apply ih
        cases hp : parse p with
        | ok t =>
            rw [start_friend_lookup_ok s hp]
            simp only [List.length_append, List.length_singleton]
            omega
        | error e =>
            rw [start_friend_lookup_err s hp]
            exact h
      · rw [try_start_from_cons_ge parse p rest s hlt]
        refine Or.inr ?_
        show s.pending_friend_queries.length = MAX_CONCURRENT_FRIEND_QUERIES
        exact Nat.le_antisymm h (Nat.le_of_not_lt hlt)

theorem try_start_from_vals (parse : String → Except String PeerId) :
    ∀ (q : List String) (s : SchedState),
      q.Nodup → (valsOf s.pending_friend_queries).Nodup →
      (∀ x ∈ q, x ∉ valsOf s.pending_friend_queries) →
      ((valsOf (try_start_from parse q s).pending_friend_queries).Nodup ∧
        (∀ x ∈ (try_start_from parse q s).friend_queue,
          x ∉ valsOf (try_start_from parse q s).pending_friend_queries)) := by
  intro q
  induction q with
  | nil =>
      intro s _ hv _
      exact ⟨hv, fun x hx => absurd hx (List.not_mem_nil x)⟩
  | cons p rest ih =>
      intro s hq hv hd
      rcases List.nodup_cons.1 hq with ⟨hpnotin, hrest⟩
      by_cases hlt : s.pending_friend_queries.length < MAX_CONCURRENT_FRIEND_QUERIES
      · rw [try_start_from_cons_lt parse p rest s hlt]
        cases hp : parse p with
        | ok t =>
            apply ih
            · exact hrest
            · rw [start_friend_lookup_ok s hp]
              show (valsOf (s.pending_friend_queries ++ [(s.next_query_id, p)])).Nodup
              rw [valsOf_append]
              refine List.Nodup.append hv (List.nodup_singleton p) ?_
              intro a ha hb
              rw [show valsOf [(s.next_query_id, p)] = [p] from rfl,
                List.mem_singleton] at hb
              exact hd p (List.mem_cons_self p rest) (hb ▸ ha)
            · intro x hx
              rw [start_friend_lookup_ok s hp]
              show x ∉ valsOf (s.pending_friend_queries ++ [(s.next_query_id, p)])
              rw [valsOf_append]
              intro hmem
              rcases List.mem_append.1 hmem with hmem | hmem
              · exact hd x (List.mem_cons_of_mem p hx) hmem
              · rw [show valsOf [(s.next_query_id, p)] = [p] from rfl,
                  List.mem_singleton] at hmem
                exact hpnotin (hmem ▸ hx)
        | error e =>
            rw [start_friend_lookup_err s hp]
            exact ih s hrest hv (fun x hx => hd x (List.mem_cons_of_mem p hx))
      · rw [try_start_from_cons_ge parse p rest s hlt]
        exact ⟨hv, fun x hx => hd x hx⟩

theorem try_start_from_keys (parse : String → Except String PeerId) :
    ∀ (q : List String) (s : SchedState),
      (keysOf s.pending_friend_queries).Nodup →
      (∀ k ∈ keysOf s.pending_friend_queries, k < s.next_query_id) →
      ((keysOf (try_start_from parse q s).pending_friend_queries).Nodup ∧
        (∀ k ∈ keysOf (try_start_from parse q s).pending_friend_queries,
          k < (try_start_from parse q s).next_query_id) ∧
        s.next_query_id ≤ (try_start_from parse q s).next_query_id) := by
  intro q
  induction q with
  | nil => intro s hk hb; exact ⟨hk, hb, Nat.le_refl _⟩
  | cons p rest ih =>
      intro s hk hb
      by_cases hlt : s.pending_friend_queries.length < MAX_CONCURRENT_FRIEND_QUERIES
      · rw [try_start_from_cons_lt parse p rest s hlt]
        cases hp : parse p with
        | ok t =>
            have hstep := ih (start_friend_lookup parse s p).1
            rw [start_friend_lookup_ok s hp] at hstep
            have hkeys :
                keysOf (s.pending_friend_queries ++ [(s.next_query_id, p)])
                  = keysOf s.pending_friend_queries ++ [s.next_query_id] := by
              rw [keysOf_append]; rfl
            obtain ⟨hk1, hk2, hk3⟩ := hstep
              (by
                show (keysOf (s.pending_friend_queries ++ [(s.next_query_id, p)])).Nodup
                rw [hkeys]
                refine List.Nodup.append hk (List.nodup_singleton _) ?_
                intro a ha hbmem
                rw [List.mem_singleton] at hbmem
                exact absurd (hb a ha) (by rw [hbmem]; exact Nat.lt_irrefl _))
              (by
                intro k hkmem
                show k < s.next_query_id + 1
                rw [hkeys] at hkmem
                rcases List.mem_append.1 hkmem with hm | hm
                · exact Nat.lt_trans (hb k hm) (Nat.lt_succ_self _)
                · rw [List.mem_singleton] at hm
                  subst hm
                  exact Nat.lt_succ_self _)
            rw [start_friend_lookup_ok s hp]
            exact ⟨hk1, hk2, Nat.le_trans (Nat.le_succ _) hk3⟩
        | error e =>
            rw [start_friend_lookup_err s hp]
            exact ih s hk hb
      · rw [try_start_from_cons_ge parse p rest s hlt]
        exact ⟨hk, hb, Nat.le_refl _⟩

theorem try_start_from_count (parse : String → Except String PeerId) (p : String) :
    ∀ (q : List String) (s : SchedState),
      countStr p (valsOf (try_start_from parse q s).dispatched)
        ≤ countStr p (valsOf s.dispatched) + countStr p q := by
  intro q
  induction q with
  | nil =>
      intro s
      show countStr p (valsOf s.dispatched)
        ≤ countStr p (valsOf s.dispatched) + countStr p []
      simp [countStr]
  | cons x rest ih =>
      intro s
      by_cases hlt : s.pending_friend_queries.length < MAX_CONCURRENT_FRIEND_QUERIES
      · rw [try_start_from_cons_lt parse x rest s hlt]
        cases hp : parse x with
        | ok t =>
            have hstep := ih (start_friend_lookup parse s x).1
            rw [start_friend_lookup_ok s hp] at hstep
            have hcnt :
                countStr p (valsOf (s.dispatched ++ [(s.next_query_id, x)]))
                  = countStr p (valsOf s.dispatched) + (if x = p then 1 else 0) := by
              rw [valsOf_append, countStr_append]
              simp [valsOf, countStr]
            rw [hcnt] at hstep
            rw [start_friend_lookup_ok s hp]
            refine Nat.le_trans hstep ?_
            show countStr p (valsOf s.dispatched) + (if x = p then 1 else 0) + countStr p rest
              ≤ countStr p (valsOf s.dispatched) + countStr p (x :: rest)
            simp only [countStr]
            omega
        | error e =>
            rw [start_friend_lookup_err s hp]
            refine Nat.le_trans (ih s) ?_
            show countStr p (valsOf s.dispatched) + countStr p rest
              ≤ countStr p (valsOf s.dispatched) + countStr p (x :: rest)
            simp only [countStr]
            omega
      · rw [try_start_from_cons_ge parse x rest s hlt]
        exact Nat.le_add_right _ _

theorem try_start_from_mem (parse : String → Except String PeerId)
    {p : String} {t : PeerId} (hok : parse p = .ok t) :
    ∀ (q : List String) (s : SchedState), p ∈ q →
      p ∈ valsOf (try_start_from parse q s).pending_friend_queries ∨
        p ∈ (try_start_from parse q s).friend_queue := by
  intro q
  induction q with
  | nil => intro s hmem; exact absurd hmem (List.not_mem_nil p)
  | cons x rest ih =>
      intro s hmem
      by_cases hlt : s.pending_friend_queries.length < MAX_CONCURRENT_FRIEND_QUERIES
      · rw [try_start_from_cons_lt parse x rest s hlt]
        rcases List.mem_cons.1 hmem with heq | hmem'
        · subst heq
          left
          obtain ⟨-, h2, -, -⟩ := try_start_from_spec parse rest (start_friend_lookup parse s p).1
          rcases h2 with ⟨tl, htl⟩
          rw [← htl, valsOf_append]
          apply List.mem_append_left
          rw [start_friend_lookup_ok s hok]
          show p ∈ valsOf (s.pending_friend_queries ++ [(s.next_query_id, p)])
          rw [valsOf_append]
          exact List.mem_append_right _ (by simp [valsOf])
        · exact ih (start_friend_lookup parse s x).1 hmem'
      · rw [try_start_from_cons_ge parse x rest s hlt]
        exact Or.inr hmem

theorem inv_initState {l : List String} (h : l.Nodup) : SchedInv (initState l) := by
  refine ⟨?_, ?_, ?_, ?_, h, ?_, h⟩
  · show ([] : List (Nat × String)).length ≤ MAX_CONCURRENT_FRIEND_QUERIES
    simp [MAX_CONCURRENT_FRIEND_QUERIES]
  · exact List.nodup_nil
  · exact List.nodup_nil
  · intro k hk
    exact absurd hk (List.not_mem_nil k)
  · intro p hp hmem
    exact absurd hmem (List.not_mem_nil p)

theorem inv_enqueue {s : SchedState} (p : String) (h : SchedInv s) :
    SchedInv (enqueue_friend_check s p) := by
  obtain ⟨h1, h2, h3, h4, h5, h6, h7⟩ := h
  unfold enqueue_friend_check
  by_cases c1 : p ∈ valsOf s.pending_friend_queries
  · simp only [if_pos c1]
    exact ⟨h1, h2, h3, h4, h5, h6, h7⟩
  · by_cases c2 : p ∈ s.friend_queue
    · simp only [if_neg c1, if_pos c2]
      exact ⟨h1, h2, h3, h4, h5, h6, h7⟩
    · simp only [if_neg c1, if_neg c2]
      refine ⟨h1, h2, h3, h4, ?_, ?_, h7⟩
      · refine List.Nodup.append h5 (List.nodup_singleton p) ?_
        intro a ha hb
        rw [List.mem_singleton] at hb
        exact c2 (hb ▸ ha)
      · intro x hx
        rcases List.mem_append.1 hx with hx | hx
        · exact h6 x hx
        · rw [List.mem_singleton] at hx
          exact hx ▸ c1

theorem inv_admit {parse : String → Except String PeerId} {s : SchedState}
    (h : SchedInv s) : SchedInv (try_start_next_friend_queries parse s) := by
  obtain ⟨h1, h2, h3, h4, h5, h6, h7⟩ := h
  unfold try_start_next_friend_queries
  obtain ⟨hids, -, -, hsuf⟩ := try_start_from_spec parse s.friend_queue s
  obtain ⟨hvn, hdisj⟩ := try_start_from_vals parse s.friend_queue s h5 h3 h6
  obtain ⟨hkn, hklt, -⟩ := try_start_from_keys parse s.friend_queue s h2 h4
  have hlen := try_start_from_len parse s.friend_queue s h1
  have hqn : (try_start_from parse s.friend_queue s).friend_queue.Nodup :=
    List.Nodup.sublist hsuf.sublist h5
  exact ⟨hlen, hkn, hvn, hklt, hqn, hdisj, hids ▸ h7⟩

theorem inv_resolve {parse : String → Except String PeerId} {now : Int}
    {s : SchedState} {qid : Nat} {r : LookupResult} (h : SchedInv s) :
    SchedInv (handle_kad_get_closest parse now s qid r).1 := by
  obtain ⟨h1, h2, h3, h4, h5, h6, h7⟩ := h
  unfold handle_kad_get_closest
  cases hf : s.pending_friend_queries.find? (fun pr => pr.1 == qid) with
  | none => exact ⟨h1, h2, h3, h4, h5, h6, h7⟩
  | some pr =>
      have hsub : List.Sublist
          (s.pending_friend_queries.filter (fun q => q.1 ≠ qid))
          s.pending_friend_queries := List.filter_sublist _
      refine ⟨Nat.le_trans hsub.length_le h1, ?_, ?_, ?_, h5, ?_, h7⟩
      · exact List.Nodup.sublist (hsub.map Prod.fst) h2
      · exact List.Nodup.sublist (hsub.map Prod.snd) h3
      · intro k hk
        exact h4 k ((hsub.map Prod.fst).subset hk)
      · intro x hx hmem
        exact h6 x hx ((hsub.map Prod.snd).subset hmem)

theorem inv_insertFriend {s : SchedState} (p : String) (h : SchedInv s) :
    SchedInv (insertFriend s p) := by
  obtain ⟨h1, h2, h3, h4, h5, h6, h7⟩ := h
  refine ⟨?_, ?_, ?_, ?_, ?_, ?_, insertFriend_ids_nodup p h7⟩
  · rw [insertFriend_pending]; exact h1
  · rw [insertFriend_pending]; exact h2
  · rw [insertFriend_pending]; exact h3
  · rw [insertFriend_pending, insertFriend_nq]; exact h4
  · rw [insertFriend_queue]; exact h5
  · rw [insertFriend_queue, insertFriend_pending]; exact h6

theorem handle_add_friend_empty (parse : String → Except String PeerId)
    (now : Int) (s : SchedState) (pid : String)
    (hne : (rustTrim pid).data.isEmpty = true) :
    handle_add_friend parse now s pid = ⟨s, [], false⟩ := by
  unfold handle_add_friend
  simp [hne]

theorem handle_add_friend_valid (parse : String → Except String PeerId)
    (now : Int) (s : SchedState) (pid : String) {t : PeerId}
    (hne : (rustTrim pid).data.isEmpty = false)
    (hok : parse (rustTrim pid) = .ok t) :
    handle_add_friend parse now s pid =
      ⟨try_start_next_friend_queries parse
          (enqueue_friend_check (insertFriend s (rustTrim pid)) (rustTrim pid)),
        [NetworkEvent.FriendStatus
          ⟨rustTrim pid, false, "Đang kiểm tra qua bootstrap node...", now⟩],
        !(s.friend_ids.contains (rustTrim pid))⟩ := by
  unfold handle_add_friend
  simp [hne, hok]

theorem handle_add_friend_invalid (parse : String → Except String PeerId)
    (now : Int) (s : SchedState) (pid : String) {e : String}
    (hne : (rustTrim pid).data.isEmpty = false)
    (herr : parse (rustTrim pid) = .error e) :
    handle_add_friend parse now s pid =
      ⟨insertFriend s (rustTrim pid),
        [NetworkEvent.FriendStatus
          ⟨rustTrim pid, false, "PeerId không hợp lệ: " ++ e, now⟩],
        !(s.friend_ids.contains (rustTrim pid))⟩ := by
  unfold handle_add_friend
  simp [hne, herr]

theorem inv_addFriend {parse : String → Except String PeerId} {now : Int}
    {s : SchedState} {pid : String} (h : SchedInv s) :
    SchedInv (handle_add_friend parse now s pid).state := by
  cases hne : (rustTrim pid).data.isEmpty with
  | true =>
      rw [handle_add_friend_empty parse now s pid hne]
      exact h
  | false =>
      cases hp : parse (rustTrim pid) with
      | ok t =>
          rw [handle_add_friend_valid parse now s pid hne hp]
          exact inv_admit (inv_enqueue _ (inv_insertFriend _ h))
      | error e =>
          rw [handle_add_friend_invalid parse now s pid hne hp]
          exact inv_insertFriend _ h

theorem reachable_inv {parse : String → Except String PeerId} {s : SchedState}
    (h : Reachable parse s) : SchedInv s := by
  induction h with
  | init l hl => exact inv_initState hl
  | enqueue s p _ ih => exact inv_enqueue p ih
  | admission s _ ih => exact inv_admit ih
  | resolve s now qid r _ ih => exact inv_resolve ih
  | addFriend s now p _ ih => exact inv_addFriend ih

theorem try_start_next_spec (parse : String → Except String PeerId) (s : SchedState) :
    (try_start_next_friend_queries parse s).friend_ids = s.friend_ids ∧
    s.pending_friend_queries
      <+: (try_start_next_friend_queries parse s).pending_friend_queries ∧
    s.dispatched <+: (try_start_next_friend_queries parse s).dispatched ∧
    (try_start_next_friend_queries parse s).friend_queue <:+ s.friend_queue :=
  try_start_from_spec parse s.friend_queue s

theorem try_start_next_count (parse : String → Except String PeerId)
    (p : String) (s : SchedState) :
    countStr p (valsOf (try_start_next_friend_queries parse s).dispatched)
      ≤ countStr p (valsOf s.dispatched) + countStr p s.friend_queue :=
  try_start_from_count parse p s.friend_queue s

theorem try_start_next_stop (parse : String → Except String PeerId) (s : SchedState)
    (h : s.pending_friend_queries.length ≤ MAX_CONCURRENT_FRIEND_QUERIES) :
    (try_start_next_friend_queries parse s).friend_queue = [] ∨
      (try_start_next_friend_queries parse s).pending_friend_queries.length
        = MAX_CONCURRENT_FRIEND_QUERIES :=
  try_start_from_stop parse s.friend_queue s h

theorem try_start_next_mem (parse : String → Except String PeerId)
    {p : String} {t : PeerId} (hok : parse p = .ok t) (s : SchedState)
    (h : p ∈ s.friend_queue) :
    p ∈ valsOf (try_start_next_friend_queries parse s).pending_friend_queries ∨
      p ∈ (try_start_next_friend_queries parse s).friend_queue :=
  try_start_from_mem parse hok s.friend_queue s h

theorem try_start_next_full (parse : String → Except String PeerId) (s : SchedState)
    (h : ¬ s.pending_friend_queries.length < MAX_CONCURRENT_FRIEND_QUERIES) :
    try_start_next_friend_queries parse s = s :=
  try_start_from_full parse s.friend_queue s h

/-! ## Claim theorems -/

/-- C1 (code bug): with four valid friends loaded at startup, exactly
three lookups are dispatched (`MAX_CONCURRENT_FRIEND_QUERIES = 3`) and
the fourth id stays queued.  Resolving all three completed lookups
removes each `PendingLookup` and emits its status, but — because
`handle_kad_event` never invokes `try_start_next_friend_queries` — no
new admission happens: the queue still holds the fourth id, no lookup
was ever dispatched for it, and with no further commands none ever will
be, contradicting "admission runs again ... every one of them eventually
resolves exactly once". -/
theorem friend_queue_starvation :
    (valsOf (startup pidParse ["peerA", "peerB", "peerC", "peerD"]).dispatched
        = ["peerA", "peerB", "peerC"]) ∧
    ((handle_kad_get_closest pidParse 12
        (handle_kad_get_closest pidParse 11
          (handle_kad_get_closest pidParse 10
            (startup pidParse ["peerA", "peerB", "peerC", "peerD"])
            0 (.ok [])).1
          1 (.ok [])).1
        2 (.ok [])).1.pending_friend_queries = []) ∧
    ((handle_kad_get_closest pidParse 12
        (handle_kad_get_closest pidParse 11
          (handle_kad_get_closest pidParse 10
            (startup pidParse ["peerA", "peerB", "peerC", "peerD"])
            0 (.ok [])).1
          1 (.ok [])).1
        2 (.ok [])).1.friend_queue = ["peerD"]) ∧
    countStr "peerD"
      (valsOf (handle_kad_get_closest pidParse 12
        (handle_kad_get_closest pidParse 11
          (handle_kad_get_closest pidParse 10
            (startup pidParse ["peerA", "peerB", "peerC", "peerD"])
            0 (.ok [])).1
          1 (.ok [])).1
        2 (.ok [])).1.dispatched) = 0 := by
  decide

/-- C2 counterexample: a DCUtR event string carrying the "Established"
signal for peer 5, handled while peer 5 is in
`failed_direct_connections`, leaves peer 5 in the failed set — the
handler does not remove it, contrary to the claim. -/
theorem dcutr_established_leaves_failed_set :
    strContains "Established: peer 5" "Established" = true ∧
    (handle_dcutr_event ⟨[5], [], [], []⟩ "Established: peer 5").1.failed_direct_connections
      = [5] := by
  decide

/-- C2 amended: `handle_dcutr_event` only logs; for the "established"
signal, the "error" signal, and any other event string it returns the
coordinator state unchanged.  In particular the peer is NOT removed from
`failed_direct_connections`; removal happens only through
`clear_failed_direct`, which this handler never calls. -/
theorem dcutr_handler_state_unchanged (s : NatTraversalState) (event_str : String) :
    (handle_dcutr_event s event_str).1 = s := by
  unfold handle_dcutr_event
  by_cases h1 : strContains event_str "Established" = true
  · simp [h1]
  · by_cases h2 : strContains event_str "Error" = true
    · simp [h1, h2]
    · simp [h1, h2]

/-- C3: in every state reachable by scheduler operations (initial load,
enqueue, admission, resolution, AddFriend), at most
`MAX_CONCURRENT_FRIEND_QUERIES = 3` lookups are pending, no peer id has
more than one pending lookup, no peer id is both queued and pending, and
no peer id appears twice in the queue. -/
theorem scheduler_bounded_invariants (parse : String → Except String PeerId)
    (s : SchedState) (h : Reachable parse s) :
    s.pending_friend_queries.length ≤ MAX_CONCURRENT_FRIEND_QUERIES ∧
    (valsOf s.pending_friend_queries).Nodup ∧
    s.friend_queue.Nodup ∧
    (∀ p ∈ s.friend_queue, p ∉ valsOf s.pending_friend_queries) := by
  obtain ⟨h1, h2, h3, h4, h5, h6, h7⟩ := reachable_inv h
  exact ⟨h1, h3, h5, h6⟩

/-- Witness for C3: the invariants hold at the concrete reachable state
obtained by loading two friends and running admission. -/
theorem scheduler_bounded_invariants_witness :
    (try_start_next_friend_queries pidParse (initState ["peerA", "peerB"])).pending_friend_queries.length
        ≤ MAX_CONCURRENT_FRIEND_QUERIES ∧
    (valsOf (try_start_next_friend_queries pidParse (initState ["peerA", "peerB"])).pending_friend_queries).Nodup ∧
    (try_start_next_friend_queries pidParse (initState ["peerA", "peerB"])).friend_queue.Nodup ∧
    (∀ p ∈ (try_start_next_friend_queries pidParse (initState ["peerA", "peerB"])).friend_queue,
      p ∉ valsOf (try_start_next_friend_queries pidParse (initState ["peerA", "peerB"])).pending_friend_queries) :=
  scheduler_bounded_invariants pidParse _
    (Reachable.admission _ (Reachable.init _ (by decide)))

/-- C5: for a `SendMessage` command with chat enabled, a successful
publish emits exactly one `MessageReceived` event, whose message has the
local identity as sender and the submitted text as content; a failed
publish emits no event at all. -/
theorem send_message_self_visibility (enable_chat publish_ok : Bool)
    (local_peer content msg_id : String) (now : Int) :
    ((handle_send_message enable_chat publish_ok local_peer content msg_id now).1
        = some true →
      (handle_send_message enable_chat publish_ok local_peer content msg_id now).2
        = [NetworkEvent.MessageReceived ⟨msg_id, local_peer, content, now⟩]) ∧
    ((handle_send_message enable_chat publish_ok local_peer content msg_id now).1
        = some false →
      (handle_send_message enable_chat publish_ok local_peer content msg_id now).2
        = []) := by
  cases enable_chat <;> cases publish_ok <;>
    simp [handle_send_message]

/-- Witness for C5: a concrete successful publish yields exactly the one
self-message event, and a concrete failed publish yields none. -/
theorem send_message_self_visibility_witness :
    (handle_send_message true true "me" "hello" "id1" 5).2
        = [NetworkEvent.MessageReceived ⟨"id1", "me", "hello", 5⟩] ∧
    (handle_send_message true false "me" "hello" "id2" 6).2 = [] :=
  ⟨(send_message_self_visibility true true "me" "hello" "id1" 5).1 rfl,
    (send_message_self_visibility true false "me" "hello" "id2" 6).2 rfl⟩

/-- C6: an `AddFriend` whose trimmed, non-empty peer id fails validation
emits exactly one `FriendStatus` event with `online = false` and the
diagnostic message, enqueues nothing, creates no pending lookup, and
dispatches no engine query. -/
theorem invalid_peer_id_rejected (parse : String → Except String PeerId)
    (now : Int) (s : SchedState) (pid e : String)
    (hne : (rustTrim pid).data.isEmpty = false)
    (herr : parse (rustTrim pid) = .error e) :
    (handle_add_friend parse now s pid).events
      = [NetworkEvent.FriendStatus
          ⟨rustTrim pid, false, "PeerId không hợp lệ: " ++ e, now⟩] ∧
    (handle_add_friend parse now s pid).state.friend_queue = s.friend_queue ∧
    (handle_add_friend parse now s pid).state.pending_friend_queries
      = s.pending_friend_queries ∧
    (handle_add_friend parse now s pid).state.dispatched = s.dispatched := by
  rw [handle_add_friend_invalid parse now s pid hne herr]
  exact ⟨rfl, insertFriend_queue s _, insertFriend_pending s _, insertFriend_disp s _⟩

/-- Witness for C6: the concrete invalid id "bad id" produces exactly
the diagnostic status event and leaves queue, pending map and dispatch
log empty. -/
theorem invalid_peer_id_rejected_witness :
    (rustTrim "bad id").data.isEmpty = false ∧
    pidParse (rustTrim "bad id") = .error "invalid peer id" ∧
    (handle_add_friend pidParse 7 (initState []) "bad id").events
      = [NetworkEvent.FriendStatus
          ⟨rustTrim "bad id", false, "PeerId không hợp lệ: " ++ "invalid peer id", 7⟩] ∧
    (handle_add_friend pidParse 7 (initState []) "bad id").state.pending_friend_queries
      = [] :=
  ⟨by decide, rfl,
    (invalid_peer_id_rejected pidParse 7 (initState []) "bad id" "invalid peer id"
      (by decide) rfl).1,
    (invalid_peer_id_rejected pidParse 7 (initState []) "bad id" "invalid peer id"
      (by decide) rfl).2.2.1⟩

/-- C8: `retry_with_relay` never acts for a peer in the connected set
passed to it, is a no-op for a peer that already has a pending retry,
and preserves distinctness of the pending-retry keys, so at most one
relay retry is pending per peer at any time. -/
theorem retry_with_relay_exclusive (s : NatTraversalState) (dial_ok : Bool)
    (peer : PeerId) (dialed_peers : List PeerId) :
    (peer ∈ dialed_peers →
      retry_with_relay s dial_ok peer dialed_peers = (s, none)) ∧
    (peer ∈ keysOf s.pending_relay_retries →
      retry_with_relay s dial_ok peer dialed_peers = (s, none)) ∧
    ((keysOf s.pending_relay_retries).Nodup →
      (keysOf (retry_with_relay s dial_ok peer dialed_peers).1.pending_relay_retries).Nodup) := by
  refine ⟨?_, ?_, ?_⟩
  · intro h
    simp [retry_with_relay, h]
  · intro h
    simp [retry_with_relay, h]
  · intro hn
    by_cases hg : peer ∈ dialed_peers ∨ peer ∈ keysOf s.pending_relay_retries
    · rcases hg with h | h <;> simp [retry_with_relay, h, hn]
    · push_neg at hg
      cases hh : s.relay_peers.head? with
      | none =>
          simp only [retry_with_relay, if_neg (not_or.2 hg), hh]
          exact hn
      | some relay_id =>
          have happ :
              (keysOf (s.pending_relay_retries
                ++ [(peer, [relayCircuitAddr relay_id peer])])).Nodup := by
            rw [keysOf_append]
            refine List.Nodup.append hn (List.nodup_singleton _) ?_
            intro a ha hb
            rw [show keysOf [(peer, [relayCircuitAddr relay_id peer])] = [peer] from rfl,
              List.mem_singleton] at hb
            exact hg.2 (hb ▸ ha)
          by_cases hd : dial_ok
          · simp only [retry_with_relay, if_neg (not_or.2 hg), hh, if_pos hd]
            exact happ
          · simp only [retry_with_relay, if_neg (not_or.2 hg), hh, if_neg hd]
            refine List.Nodup.sublist ?_ happ
            exact (List.filter_sublist _).map Prod.fst

/-- Witness for C8: with a concrete pending retry for peer 3, calling
`retry_with_relay` for peer 3 again is a no-op, and with peer 4 in the
connected set, retrying peer 4 is a no-op. -/
theorem retry_with_relay_exclusive_witness :
    ((3 : PeerId) ∈ keysOf [((3 : PeerId), ([] : List Multiaddr))]) ∧
    retry_with_relay ⟨[], [9], [(3, [])], []⟩ true 3 [] = (⟨[], [9], [(3, [])], []⟩, none) ∧
    retry_with_relay ⟨[], [9], [], []⟩ true 4 [4] = (⟨[], [9], [], []⟩, none) :=
  ⟨by decide,
    (retry_with_relay_exclusive ⟨[], [9], [(3, [])], []⟩ true 3 []).2.1 (by decide),
    (retry_with_relay_exclusive ⟨[], [9], [], []⟩ true 4 [4]).1 (by decide)⟩

/-- C9 counterexample: for a concrete valid address whose dial fails,
the `ConnectToPeer` handler emits NO event to the UI (its event list is
empty even though a dial was attempted), contrary to the claim that the
failure is reported as an event. -/
theorem dial_failure_not_reported :
    (handle_connect_to_peer addrParseTest false "addr-p2p").2.1 = [] ∧
    NetAction.dial [Proto.other 0, Proto.p2p 7]
      ∈ (handle_connect_to_peer addrParseTest false "addr-p2p").1 := by
  decide

/-- C9 amended: for a `ConnectToPeer` whose address parses, a dial is
always attempted; when the address embeds a peer id in its last
component, the full address is registered in the routing table before
the dial; dial failures are logged only — no event is reported to the
UI — and the session is never terminated. -/
theorem connect_to_peer_registers_then_dials
    (parseAddr : String → Except String Multiaddr) (dial_ok : Bool)
    (address : String) (addr : Multiaddr) (h : parseAddr address = .ok addr) :
    (NetAction.dial addr ∈ (handle_connect_to_peer parseAddr dial_ok address).1) ∧
    (∀ pid, addr.getLast? = some (Proto.p2p pid) →
      (handle_connect_to_peer parseAddr dial_ok address).1
        = [NetAction.kadAddAddress pid addr, NetAction.dial addr]) ∧
    ((handle_connect_to_peer parseAddr dial_ok address).2.1 = []) ∧
    ((handle_connect_to_peer parseAddr dial_ok address).2.2 = false) := by
  unfold handle_connect_to_peer
  rw [h]
  cases hl : addr.getLast? with
  | none => simp [hl]
  | some pr =>
      cases pr with
      | p2p pid => simp [hl]
      | circuit => simp [hl]
      | other tag => simp [hl]

/-- Witness for C9 amended: on a concrete address with an embedded peer
id, the handler registers the address and then dials, with no UI event
and no termination. -/
theorem connect_to_peer_witness :
    (handle_connect_to_peer addrParseTest true "addr-p2p").1
        = [NetAction.kadAddAddress 7 [Proto.other 0, Proto.p2p 7],
            NetAction.dial [Proto.other 0, Proto.p2p 7]] ∧
    (handle_connect_to_peer addrParseTest true "addr-p2p").2.1 = [] :=
  ⟨(connect_to_peer_registers_then_dials addrParseTest true "addr-p2p"
        [Proto.other 0, Proto.p2p 7] rfl).2.1 7 (by decide),
    (connect_to_peer_registers_then_dials addrParseTest true "addr-p2p"
        [Proto.other 0, Proto.p2p 7] rfl).2.2.1⟩

/-- C10: for an `AddFriend` whose trimmed id is non-empty but
syntactically invalid, the id is nevertheless inserted into the friend
set (and the friend list persisted when it was new), because insertion
and persistence happen before validation; yet no lookup is enqueued or
dispatched for it. -/
theorem invalid_friend_still_stored (parse : String → Except String PeerId)
    (now : Int) (s : SchedState) (pid e : String)
    (hne : (rustTrim pid).data.isEmpty = false)
    (herr : parse (rustTrim pid) = .error e) :
    rustTrim pid ∈ (handle_add_friend parse now s pid).state.friend_ids ∧
    (handle_add_friend parse now s pid).persisted
      = !(s.friend_ids.contains (rustTrim pid)) ∧
    (handle_add_friend parse now s pid).state.friend_queue = s.friend_queue ∧
    (handle_add_friend parse now s pid).state.pending_friend_queries
      = s.pending_friend_queries ∧
    (handle_add_friend parse now s pid).state.dispatched = s.dispatched := by
  rw [handle_add_friend_invalid parse now s pid hne herr]
  refine ⟨?_, rfl, insertFriend_queue s _, insertFriend_pending s _, insertFriend_disp s _⟩
  unfold insertFriend
  by_cases hm : rustTrim pid ∈ s.friend_ids
  · simp only [if_pos hm]
    exact hm
  · simp only [if_neg hm]
    exact List.mem_append_right _ (List.mem_singleton.2 rfl)

/-- Witness for C10: the concrete invalid id "bad id" is stored in the
friend set and persisted even though it is rejected by validation. -/
theorem invalid_friend_still_stored_witness :
    (rustTrim "bad id").data.isEmpty = false ∧
    rustTrim "bad id"
      ∈ (handle_add_friend pidParse 7 (initState []) "bad id").state.friend_ids ∧
    (handle_add_friend pidParse 7 (initState []) "bad id").persisted
      = !((initState []).friend_ids.contains (rustTrim "bad id")) :=
  ⟨by decide,
    (invalid_friend_still_stored pidParse 7 (initState []) "bad id" "invalid peer id"
      (by decide) rfl).1,
    (invalid_friend_still_stored pidParse 7 (initState []) "bad id" "invalid peer id"
      (by decide) rfl).2.1⟩

/-- C7 counterexample: for the empty closest-peers result the reported
message is the fixed string "Không tìm thấy peer trong DHT", which does
not include the count (0) of peers considered, contrary to the claim
that each reported status message includes the count. -/
theorem empty_result_message_lacks_count :
    (friend_lookup_status pidParse 0 "peerA" (.ok [])).online = false ∧
    (friend_lookup_status pidParse 0 "peerA" (.ok [])).message
      = "Không tìm thấy peer trong DHT" ∧
    strContains (friend_lookup_status pidParse 0 "peerA" (.ok [])).message
      (toString (List.length ([] : List PeerId))) = false := by
  decide

/-- C7 amended: for a successfully parsed queried id, the reported
online flag equals membership of the id in the returned closest-peer
set; the found message and the not-found-with-peers message include the
peer count; the empty result reports offline with the fixed "not found"
message (with no count); a timeout reports offline with a "Timeout"
message that includes the count. -/
theorem lookup_outcome_classification (parse : String → Except String PeerId)
    (now : Int) (pid : String) (t : PeerId) (peers : List PeerId)
    (hok : parse pid = .ok t) :
    ((friend_lookup_status parse now pid (.ok peers)).online = peers.contains t) ∧
    (peers.contains t = true →
      strContains (friend_lookup_status parse now pid (.ok peers)).message
        (toString peers.length) = true) ∧
    (peers = [] →
      (friend_lookup_status parse now pid (.ok peers)).online = false ∧
      (friend_lookup_status parse now pid (.ok peers)).message
        = "Không tìm thấy peer trong DHT") ∧
    (peers ≠ [] → peers.contains t = false →
      strContains (friend_lookup_status parse now pid (.ok peers)).message
        (toString peers.length) = true) ∧
    ((friend_lookup_status parse now pid (.timeout peers)).online = false) ∧
    (strContains (friend_lookup_status parse now pid (.timeout peers)).message
      "Timeout" = true) ∧
    (strContains (friend_lookup_status parse now pid (.timeout peers)).message
      (toString peers.length) = true) := by
  refine ⟨?_, ?_, ?_, ?_, ?_, ?_, ?_⟩
  · simp [friend_lookup_status, hok]
  · intro hc
    simp only [friend_lookup_status, hok, hc, if_true]
    exact strContains_of_data _ _ ("Đã tìm thấy trong DHT (" : String).data
      (" peers gần nhất)" : String).data (by simp)
  · intro hnil
    subst hnil
    simp [friend_lookup_status, hok]
  · intro hnil hc
    cases peers with
    | nil => exact absurd rfl hnil
    | cons a as =>
        simp only [friend_lookup_status, hok, hc, if_false, List.isEmpty_cons]
        exact strContains_of_data _ _ ("Không tìm thấy, nhưng có " : String).data
          (" peers gần nhất trả về" : String).data (by simp)
  · simp [friend_lookup_status]
  · apply strContains_of_data _ _ []
      ((" khi truy vấn bootstrap (" : String).data
        ++ (toString peers.length).data ++ (" peers gần nhất)" : String).data)
    have hsplit : ("Timeout khi truy vấn bootstrap (" : String).data
        = ("Timeout" : String).data ++ (" khi truy vấn bootstrap (" : String).data := by
      decide
    simp only [friend_lookup_status]
    show (("Timeout khi truy vấn bootstrap (" ++ toString peers.length
        ++ " peers gần nhất)" : String)).data = _
    simp [hsplit]
  · simp only [friend_lookup_status]
    exact strContains_of_data _ _ ("Timeout khi truy vấn bootstrap (" : String).data
      (" peers gần nhất)" : String).data (by simp)

/-- Witness for C7 amended: concrete classification of a result that
contains the queried id, and of a timeout. -/
theorem lookup_outcome_classification_witness :
    ((friend_lookup_status pidParse 3 "peerA" (.ok [1, 2])).online
        = (([1, 2] : List PeerId).contains 1)) ∧
    strContains (friend_lookup_status pidParse 3 "peerA" (.timeout [1, 2])).message
      "Timeout" = true :=
  ⟨(lookup_outcome_classification pidParse 3 "peerA" 1 [1, 2] rfl).1,
    (lookup_outcome_classification pidParse 3 "peerA" 1 [1, 2] rfl).2.2.2.2.2.1⟩

/-- C4 counterexample: AddFriend("peerA"), then completion of its
lookup, then a second AddFriend("peerA") — with the friend never removed
— dispatches a second lookup for the same id: two lookups in total,
refuting "enqueues at most one lookup in total" / "does not re-trigger a
lookup unless the friend was removed and re-added". -/
theorem add_friend_retrigger_counterexample :
    countStr "peerA"
      (valsOf (handle_add_friend pidParse 2
          (handle_kad_get_closest pidParse 1
            (handle_add_friend pidParse 0 (initState []) "peerA").state
            0 (.ok [])).1
          "peerA").state.dispatched) = 2 := by
  decide

/-- C4 amended: two consecutive `AddFriend`s for the same valid id, with
no intervening lookup completion, dispatch no second lookup for that id
(the pair dispatches at most one in total beyond the prior history), and
the friend record is never duplicated; however — as the counterexample
shows — once the pending lookup completes, a fresh `AddFriend`
re-enqueues the id and re-triggers a lookup even without removal. -/
theorem add_friend_idempotent_consecutive (parse : String → Except String PeerId)
    (s : SchedState) (pid : String) (t : PeerId) (now1 now2 : Int)
    (hinv : SchedInv s)
    (hne : (rustTrim pid).data.isEmpty = false)
    (hok : parse (rustTrim pid) = .ok t) :
    countStr (rustTrim pid)
        (valsOf (handle_add_friend parse now2
            (handle_add_friend parse now1 s pid).state pid).state.dispatched)
      = countStr (rustTrim pid)
          (valsOf (handle_add_friend parse now1 s pid).state.dispatched) ∧
    countStr (rustTrim pid)
        (valsOf (handle_add_friend parse now1 s pid).state.dispatched)
      ≤ countStr (rustTrim pid) (valsOf s.dispatched) + 1 ∧
    (handle_add_friend parse now2
        (handle_add_friend parse now1 s pid).state pid).state.friend_ids.Nodup := by
  refine ⟨?_, ?_, (inv_addFriend (inv_addFriend hinv)).2.2.2.2.2.2⟩
  · rw [handle_add_friend_valid parse now1 s pid hne hok,
      handle_add_friend_valid parse now2 _ pid hne hok]
    dsimp only
    set p := rustTrim pid with hpdef
    set s2 := enqueue_friend_check (insertFriend s p) p with hs2def
    set o1 := try_start_next_friend_queries parse s2 with ho1def
    have hinv2 : SchedInv s2 := by
      rw [hs2def]
      exact inv_enqueue _ (inv_insertFriend _ hinv)
    have hinvO1 : SchedInv o1 := by
      rw [ho1def]
      exact inv_admit hinv2
    have hmem1 : p ∈ valsOf o1.pending_friend_queries ∨ p ∈ o1.friend_queue := by
      rw [ho1def]
      rcases enqueue_mem (insertFriend s p) p with hm | hm
      · left
        obtain ⟨-, hpre, -, -⟩ := try_start_next_spec parse s2
        rcases hpre with ⟨tl, htl⟩
        rw [← htl, valsOf_append]
        exact List.mem_append_left _ hm
      · exact try_start_next_mem parse hok s2 hm
    rcases hmem1 with hm | hm
    · have hnoop : enqueue_friend_check (insertFriend o1 p) p = insertFriend o1 p :=
        enqueue_noop (Or.inl (by rw [insertFriend_pending]; exact hm))
      rw [hnoop]
      have hqn : p ∉ o1.friend_queue := fun hq => hinvO1.2.2.2.2.2.1 p hq hm
      have hup := try_start_next_count parse p (insertFriend o1 p)
      rw [insertFriend_disp, insertFriend_queue, countStr_eq_zero hqn] at hup
      obtain ⟨-, -, hdpre, -⟩ := try_start_next_spec parse (insertFriend o1 p)
      rcases hdpre with ⟨tl, htl⟩
      have hlow : countStr p (valsOf o1.dispatched)
          ≤ countStr p
              (valsOf (try_start_next_friend_queries parse (insertFriend o1 p)).dispatched) := by
        rw [← htl, valsOf_append, countStr_append, insertFriend_disp]
        exact Nat.le_add_right _ _
      omega
    · have hfull : o1.pending_friend_queries.length = MAX_CONCURRENT_FRIEND_QUERIES := by
        rcases try_start_next_stop parse s2 hinv2.1 with hq | hl
        · rw [ho1def] at hm
          rw [hq] at hm
          exact absurd hm (List.not_mem_nil p)
        · rw [ho1def]
          exact hl
      have hnoop : enqueue_friend_check (insertFriend o1 p) p = insertFriend o1 p :=
        enqueue_noop (Or.inr (by rw [insertFriend_queue]; exact hm))
      rw [hnoop]
      have hnl : ¬ (insertFriend o1 p).pending_friend_queries.length
          < MAX_CONCURRENT_FRIEND_QUERIES := by
        rw [insertFriend_pending, hfull]
        exact Nat.lt_irrefl _
      rw [try_start_next_full parse _ hnl, insertFriend_disp]
  · rw [handle_add_friend_valid parse now1 s pid hne hok]
    dsimp only
    have hq2 : (enqueue_friend_check (insertFriend s (rustTrim pid))
        (rustTrim pid)).friend_queue.Nodup :=
      (inv_enqueue _ (inv_insertFriend _ hinv)).2.2.2.2.1
    have hc1 := try_start_next_count parse (rustTrim pid)
      (enqueue_friend_check (insertFriend s (rustTrim pid)) (rustTrim pid))
    rw [enqueue_disp, insertFriend_disp] at hc1
    have hcq : countStr (rustTrim pid)
        (enqueue_friend_check (insertFriend s (rustTrim pid))
          (rustTrim pid)).friend_queue ≤ 1 :=
      countStr_le_one_of_nodup hq2
    exact Nat.le_trans hc1 (Nat.add_le_add_left hcq _)

/-- Witness for C4 amended: two consecutive AddFriend("peerA") commands
on the empty initial state dispatch exactly as many "peerA" lookups as
the first alone. -/
theorem add_friend_idempotent_witness :
    SchedInv (initState []) ∧
    countStr (rustTrim "peerA")
        (valsOf (handle_add_friend pidParse 1
            (handle_add_friend pidParse 0 (initState []) "peerA").state
            "peerA").state.dispatched)
      = countStr (rustTrim "peerA")
          (valsOf (handle_add_friend pidParse 0 (initState []) "peerA").state.dispatched) :=
  ⟨by decide,
    (add_friend_idempotent_consecutive pidParse (initState []) "peerA" 1 0 1
      (by decide) (by decide) rfl).1⟩

end ServerlessChat
